import Mathlib

/-!
# Comd terminal / mint orchestrator — verification development

Shallow embedding of the Comd client (a web3 terminal: command console in
`client/src/main.tsx` (`useTerminal`), mint/balance orchestrators in
`client/src/contexts/Web3Context.tsx` and the unnamed rewrites, and the
ethers helpers of `part_003`).

Remote (chain/RPC) operations are modelled as oracles: an environment record
supplies, for each remote read or write the code may issue, the value it
returns or the fault (its `Error.message` string) it throws with.  JavaScript
exceptions are modelled with `Except String`; `try`/`catch` blocks become
`match`es on those values.  Every remote call the code issues is also recorded
in an ordered trace, so "zero writes", "exactly one claim write" and
"awaits confirmation before submitting" become statements about the trace.

Identifiers `id`/`timestamp` of transcript lines (produced from `Date.now()`
and `Math.random()`) are nondeterministic display identifiers and are not
modelled; a transcript line is its kind and its text.
-/

set_option maxHeartbeats 1000000
set_option linter.unusedVariables false

deriving instance DecidableEq for Except

namespace Comd

/-! ## JavaScript string helpers

`String.prototype.includes(pat)` is substring occurrence.  We model it on the
character lists of Lean strings with an executable matcher and prove the
decomposition characterisation that the error-classification proofs need. -/

/-- Predicate `beginsWith l p = true` iff the list `p` is a leading segment
of `l` (JS `startsWith` on character lists). -/
def beginsWith {α : Type} [DecidableEq α] : List α → List α → Bool
  | _, [] => true
  | [], _ :: _ => false
  | a :: l, b :: p => if a = b then beginsWith l p else false

/-- Predicate `occursIn p l = true` iff `p` occurs contiguously somewhere in `l`. -/
def occursIn {α : Type} [DecidableEq α] (p : List α) : List α → Bool
  | [] => beginsWith ([] : List α) p
  | a :: l => beginsWith (a :: l) p || occursIn p l

/-- JS `s.includes(pat)`. -/
def includes (s pat : String) : Bool := occursIn pat.data s.data

/-- JS `s.trim()`: strip leading and trailing whitespace (structural, so
concrete inputs evaluate in the kernel). -/
def jsTrim (s : String) : String :=
  ⟨((s.data.dropWhile Char.isWhitespace).reverse.dropWhile Char.isWhitespace).reverse⟩

/-- JS `s.toLowerCase()` (ASCII case mapping, as the command keywords need). -/
def jsToLower (s : String) : String := ⟨s.data.map Char.toLower⟩

/-- JS `s.split(" ")[0]`: the characters before the first space. -/
def firstToken (s : String) : String := ⟨s.data.takeWhile (fun c => ¬ c = ' ')⟩

/-- Everything after the first occurrence of `pat`, if `pat` occurs. -/
def afterFirst {α : Type} [DecidableEq α] (pat : List α) : List α → Option (List α)
  | [] => if pat = [] then some [] else none
  | a :: l => if beginsWith (a :: l) pat then some ((a :: l).drop pat.length)
              else afterFirst pat l

theorem beginsWith_iff {α : Type} [DecidableEq α] (l p : List α) :
    beginsWith l p = true ↔ ∃ t, l = p ++ t := by
  induction p generalizing l with
  | nil => simp [beginsWith]
  | cons b p ih =>
    cases l with
    | nil => simp [beginsWith]
    | cons a l =>
      simp only [beginsWith]
      constructor
      · intro h
        split at h
        · obtain ⟨t, rfl⟩ := (ih l).mp h
          exact ⟨t, by simp_all⟩
        · simp at h
      · rintro ⟨t, ht⟩
        simp only [List.cons_append, List.cons.injEq] at ht
        obtain ⟨rfl, rfl⟩ := ht
        simp [(ih _).mpr ⟨t, rfl⟩]

theorem occursIn_iff {α : Type} [DecidableEq α] (p l : List α) :
    occursIn p l = true ↔ ∃ u v, l = u ++ p ++ v := by
  induction l with
  | nil =>
    simp only [occursIn, beginsWith_iff]
    constructor
    · rintro ⟨t, ht⟩
      exact ⟨[], t, by simpa using ht⟩
    · rintro ⟨u, v, huv⟩
      have hu : u = [] := by
        cases u <;> simp_all
      subst hu
      exact ⟨v, by simpa using huv⟩
  | cons a l ih =>
    simp only [occursIn, Bool.or_eq_true, beginsWith_iff, ih]
    constructor
    · rintro (⟨t, ht⟩ | ⟨u, v, huv⟩)
      · exact ⟨[], t, by simpa using ht⟩
      · exact ⟨a :: u, v, by simp [huv]⟩
    · rintro ⟨u, v, huv⟩
      cases u with
      | nil => exact Or.inl ⟨v, by simpa using huv⟩
      | cons x u =>
        simp only [List.cons_append, List.cons.injEq] at huv
        exact Or.inr ⟨u, v, huv.2⟩

theorem occursIn_of_middle {α : Type} [DecidableEq α] (u p v : List α) :
    occursIn p (u ++ p ++ v) = true :=
  (occursIn_iff p _).mpr ⟨u, v, rfl⟩

/-- A pattern none of whose characters satisfy `P` cannot straddle a nonempty
block of `P`-characters: if it occurs in `A ++ x ++ B` with `x` all-`P`, it
occurs wholly inside `A` or wholly inside `B`. -/
theorem occursIn_append_sep {α : Type} [DecidableEq α] (P : α → Prop)
    (p A x B : List α)
    (hp : ∀ c ∈ p, ¬ P c) (hx : ∀ c ∈ x, P c) (hxne : x ≠ [])
    (h : occursIn p (A ++ x ++ B) = true) :
    occursIn p A = true ∨ occursIn p B = true := by
  by_cases hp0 : p = []
  · subst hp0
    exact Or.inl ((occursIn_iff _ _).mpr ⟨[], A, by simp⟩)
  rw [occursIn_iff] at h
  obtain ⟨u, v, huv⟩ := h
  rcases Nat.lt_or_ge A.length (u.length + p.length) with h1 | h1
  · rcases Nat.lt_or_ge u.length (A.length + x.length) with h2 | h2
    · -- overlap with the separator block: impossible
      exfalso
      have hplen : 0 < p.length := List.length_pos.mpr hp0
      have hxlen : 0 < x.length := List.length_pos.mpr hxne
      set j := max u.length A.length with hj
      have hju : u.length ≤ j := le_max_left _ _
      have hjA : A.length ≤ j := le_max_right _ _
      have hjup : j < u.length + p.length := by
        rcases max_cases u.length A.length with ⟨hcase, _⟩ | ⟨hcase, _⟩ <;> omega
      have hjAx : j < A.length + x.length := by
        rcases max_cases u.length A.length with ⟨hcase, _⟩ | ⟨hcase, _⟩ <;> omega
      have hgl : (u ++ p ++ v)[j]? = (A ++ x ++ B)[j]? := by rw [huv]
      have hlhs : (u ++ p ++ v)[j]? = p[j - u.length]? := by
        rw [List.append_assoc, List.getElem?_append_right hju,
          List.getElem?_append_left (by omega)]
      have hrhs : (A ++ x ++ B)[j]? = x[j - A.length]? := by
        rw [List.append_assoc, List.getElem?_append_right hjA,
          List.getElem?_append_left (by omega)]
      have hpj : j - u.length < p.length := by omega
      have hxj : j - A.length < x.length := by omega
      rw [hlhs, hrhs, List.getElem?_eq_getElem hpj, List.getElem?_eq_getElem hxj] at hgl
      have hc : p[j - u.length] = x[j - A.length] := by simpa using hgl
      have m1 : p[j - u.length] ∈ p := List.getElem_mem hpj
      have m2 : x[j - A.length] ∈ x := List.getElem_mem hxj
      exact hp _ m1 (by rw [hc]; exact hx _ m2)
    · -- occurrence lies wholly inside B
      right
      have hB : B = u.drop (A.length + x.length) ++ p ++ v := by
        have hdrop : (u ++ (p ++ v)).drop (A.length + x.length)
            = u.drop (A.length + x.length) ++ (p ++ v) := by
          rw [List.drop_append_eq_append_drop]
          congr 1
          rw [Nat.sub_eq_zero_of_le h2, List.drop_zero]
        have hABdrop : (A ++ x ++ B).drop (A.length + x.length) = B := by
          have h0 := List.drop_left (A ++ x) B
          rw [List.length_append] at h0
          exact h0
        calc B = (A ++ x ++ B).drop (A.length + x.length) := hABdrop.symm
          _ = (u ++ p ++ v).drop (A.length + x.length) := by rw [huv]
          _ = u.drop (A.length + x.length) ++ p ++ v := by
              rw [List.append_assoc, hdrop, ← List.append_assoc]
      exact (occursIn_iff _ _).mpr ⟨_, _, hB⟩
  · -- occurrence lies wholly inside A
    left
    have e1 : (A ++ x ++ B).take A.length = A := by
      rw [List.append_assoc]
      exact List.take_left A (x ++ B)
    have e2 : (u ++ p ++ v).take A.length
        = (u ++ p) ++ v.take (A.length - (u.length + p.length)) := by
      rw [List.take_append_eq_append_take, List.take_of_length_le (by simp; omega)]
      simp [List.length_append]
    have hA : A = u ++ p ++ v.take (A.length - (u.length + p.length)) := by
      calc A = (A ++ x ++ B).take A.length := e1.symm
        _ = (u ++ p ++ v).take A.length := by rw [huv]
        _ = u ++ p ++ v.take (A.length - (u.length + p.length)) := by
            rw [e2, List.append_assoc]
    exact (occursIn_iff _ _).mpr ⟨u, _, hA⟩

/-! ## Decimal rendering

`Number(x).toFixed(2)` / template-literal number printing.  Digits are
rendered with a fuel-based structural recursion so that concrete witness
evaluation reduces in the kernel. -/

/-- Decimal digit characters of `n`, most significant first (fuel-based). -/
def natDigitsAux : Nat → Nat → List Char
  | 0, _ => []
  | fuel + 1, n =>
    if n < 10 then [Nat.digitChar n]
    else natDigitsAux fuel (n / 10) ++ [Nat.digitChar (n % 10)]

/-- Decimal digit characters of `n`. -/
def natDigits (n : Nat) : List Char := natDigitsAux (n + 1) n

/-- Decimal string of `n` (JS number-to-string for naturals). -/
def natStr (n : Nat) : String := ⟨natDigits n⟩

theorem digitChar_isDigit : ∀ d, d < 10 → (Nat.digitChar d).isDigit = true := by decide

theorem natDigitsAux_isDigit (fuel : Nat) :
    ∀ n c, c ∈ natDigitsAux fuel n → c.isDigit = true := by
  induction fuel with
  | zero => intro n c hc; simp [natDigitsAux] at hc
  | succ fuel ih =>
    intro n c hc
    simp only [natDigitsAux] at hc
    split at hc
    · rename_i h10
      simp at hc
      exact hc ▸ digitChar_isDigit n h10
    · rcases List.mem_append.mp hc with hc | hc
      · exact ih _ _ hc
      · simp at hc
        exact hc ▸ digitChar_isDigit _ (Nat.mod_lt _ (by omega))

theorem natDigits_isDigit (n : Nat) : ∀ c ∈ natDigits n, c.isDigit = true :=
  fun c hc => natDigitsAux_isDigit (n + 1) n c hc

theorem natDigits_ne_nil (n : Nat) : natDigits n ≠ [] := by
  unfold natDigits natDigitsAux
  split
  · simp
  · simp

/-- Formatting `(Number(micro) / 1000000).toFixed(2)`: the USDC amount held as an integer
count of micro-USDC, printed with two decimal places.  Modelled exactly on
rationals (round half up); the JS double computation agrees on all values
the claims exercise. -/
def fmtUSDC (micro : Nat) : String :=
  let c := (micro + 5000) / 10000
  natStr (c / 100) ++ "." ++ (if c % 100 < 10 then "0" else "") ++ natStr (c % 100)

theorem data_append (s t : String) : (s ++ t).data = s.data ++ t.data := rfl

theorem fmtUSDC_chars (micro : Nat) :
    ∀ c ∈ (fmtUSDC micro).data, c.isDigit = true ∨ c = '.' := by
  intro c hc
  unfold fmtUSDC at hc
  simp only [data_append] at hc
  rcases List.mem_append.mp hc with hc | hc
  · rcases List.mem_append.mp hc with hc | hc
    · rcases List.mem_append.mp hc with hc | hc
      · exact Or.inl (natDigits_isDigit _ c hc)
      · simp at hc
        exact Or.inr hc
    · split at hc
      · simp at hc
        subst hc
        exact Or.inl (by decide)
      · simp at hc
  · exact Or.inl (natDigits_isDigit _ c hc)

theorem fmtUSDC_ne_nil (micro : Nat) : (fmtUSDC micro).data ≠ [] := by
  unfold fmtUSDC
  simp only [data_append]
  intro h
  have hne := natDigits_ne_nil (((micro + 5000) / 10000) / 100)
  simp only [natStr, List.append_eq_nil] at h
  exact hne h.1.1.1

/-! ## Shared data model (from `shared/schema.ts` and the context files) -/

/-- Record `Wallet` of the Web3 contexts: address, chain id, connection flag. -/
structure Wallet where
  address : String
  chainId : Nat
  isConnected : Bool
deriving DecidableEq

/-- Record `Balance`: the usdc and native amounts, both formatted strings. -/
structure Balance where
  usdc : String
  native : String
deriving DecidableEq

/-- Record `NFT`: metadata as the contexts build it. -/
structure NFT where
  tokenId : String
  name : String
  image : String
  owner : String
deriving DecidableEq

/-- Constant `USDC_ADDRESS` (Base mainnet USDC). -/
def USDC_ADDRESS : String := "0x833589fCD6eDb6E08f4c7C32D4f71b54bdA02913"

/-- Constant `NFT_CONTRACT_ADDRESS`. -/
def NFT_CONTRACT_ADDRESS : String := "0x859078e89E58B0Ab0021755B95360f48fBa763dd"

/-- Constant `TOKEN_ID = 0`. -/
def TOKEN_ID : Nat := 0

/-- Constant `MINT_PRICE = 1000000n` (1 USDC, 6 decimals). -/
def MINT_PRICE : Nat := 1000000

/-- Arguments of a `claim` submission (the fields the code passes to the drop
contract: receiver, token id, quantity, currency, per-unit price, and the
default allow-list proof `([[], 0, MINT_PRICE, USDC], "0x")`). -/
structure ClaimArgs where
  receiver : String
  tokenId : Nat
  quantity : Nat
  currency : String
  pricePerToken : Nat
  proofQuantityLimit : Nat
  proofPricePerToken : Nat
  proofCurrency : String
  dataBytes : String
deriving DecidableEq

/-- The claim arguments every mint variant builds for `receiver`/`quantity`. -/
def claimArgs (receiver : String) (quantity : Nat) : ClaimArgs :=
  { receiver := receiver
    tokenId := TOKEN_ID
    quantity := quantity
    currency := USDC_ADDRESS
    pricePerToken := MINT_PRICE
    proofQuantityLimit := 0
    proofPricePerToken := MINT_PRICE
    proofCurrency := USDC_ADDRESS
    dataBytes := "0x" }

/-- One remote (chain) call issued by an orchestrator, in issue order.
`sendClaim true` is the structured `prepareContractCall` claim, `sendClaim
false` the manually ABI-encoded fallback transaction. -/
inductive RemoteCall : Type where
  | readBalance (holder : String)
  | readAllowance (owner spender : String)
  | sendApprove (spender : String) (amount : Nat)
  | awaitReceipt (txHash : String)
  | sendClaim (structured : Bool) (args : ClaimArgs)
deriving DecidableEq

/-- Is this remote call a state-mutating write (an authorization write or a
claim submission)? -/
def RemoteCall.isWrite : RemoteCall → Bool
  | .sendApprove _ _ => true
  | .sendClaim _ _ => true
  | _ => false

/-- Is this remote call a `setSpendAuthorization` (ERC-20 `approve`) write? -/
def RemoteCall.isApproveWrite : RemoteCall → Bool
  | .sendApprove _ _ => true
  | _ => false

/-- Is this remote call a claim submission? -/
def RemoteCall.isClaimWrite : RemoteCall → Bool
  | .sendClaim _ _ => true
  | _ => false

/-! ## Mint orchestrator, `client/src/contexts/Web3Context.tsx` variant

`mintNFT` (lines 74–180): allowance read → conditional `approve(MINT_PRICE)`
→ fixed 2-second local pause (no receipt await; the pause is not a remote
call) → manually ABI-encoded `claim` sent via `sendTx`.  The `catch` block
rewrites recognised fault messages and rethrows anything else unchanged. -/

namespace Web3Context

/-- Oracle for the remote operations `mintNFT` may perform. -/
structure LedgerEnv where
  allowance : Except String Nat
  approveSend : Except String String
  claimSend : Except String String
deriving DecidableEq

/-- The `catch` block of `mintNFT` (lines 163–179): message-pattern
classification of a raw fault. -/
def classifyMintError (m : String) : String :=
  if includes m "rejected" then "Transaction rejected by user"
  else if includes m "insufficient" then "Insufficient USDC balance"
  else if includes m "DropNoActiveCondition" then "No active claim condition"
  else if includes m "DropClaimExceedLimit" then "Already claimed maximum amount"
  else if includes m "execution reverted" then "Claim failed - check if mint is active"
  else m

/-- Function `mintNFT` of `Web3Context.tsx` (lines 74–180).  Returns the transaction
hash or the thrown message, plus the ordered remote-call trace. -/
def mintNFT (wallet : Option Wallet) (env : LedgerEnv) :
    Except String String × List RemoteCall :=
  match wallet with
  | none => (.error "Wallet not connected", [])
  | some w =>
    let t1 : List RemoteCall := [.readAllowance w.address NFT_CONTRACT_ADDRESS]
    match env.allowance with
    | .error m => (.error (classifyMintError m), t1)
    | .ok allowance =>
      if allowance < MINT_PRICE then
        let t2 := t1 ++ [.sendApprove NFT_CONTRACT_ADDRESS MINT_PRICE]
        match env.approveSend with
        | .error m => (.error (classifyMintError m), t2)
        | .ok _ =>
          -- `await new Promise(... 2000)`: local pause, no remote call
          let t3 := t2 ++ [.sendClaim false (claimArgs w.address 1)]
          match env.claimSend with
          | .error m => (.error (classifyMintError m), t3)
          | .ok h => (.ok h, t3)
      else
        let t3 := t1 ++ [.sendClaim false (claimArgs w.address 1)]
        match env.claimSend with
        | .error m => (.error (classifyMintError m), t3)
        | .ok h => (.ok h, t3)

/-- Function `getBalance` of `Web3Context.tsx` (lines 182–215).  The USDC read comes
from the oracle; the native balance is the `useWalletBalance` display value
(already a formatted string; its `parseFloat(...).toFixed(4)` float
formatting is opaque here and the hook value is passed through). -/
def getBalance (wallet : Option Wallet) (ethBalanceDisplay : Option String)
    (usdcRead : Except String Nat) : Except String Balance :=
  match wallet with
  | none => .error "Wallet not connected"
  | some _ =>
    let ethFormatted := match ethBalanceDisplay with
      | some s => s
      | none => "0.0000"
    match usdcRead with
    | .ok b => .ok { usdc := fmtUSDC b, native := ethFormatted }
    | .error _ => .ok { usdc := "0.00", native := "0.0000" }

end Web3Context

/-! ## Mint orchestrator, `part_006` variant

The full five-step `mintNFT(quantity)`: quantity bound check, balance read
with an insufficient-funds throw, allowance read, conditional approve for
exactly the total price with `waitForReceipt`, then the structured claim
call with a manually-encoded fallback.  Every throw inside the `try` block
(including the insufficient-balance throw) passes through the `catch`
classifier (lines 276–316). -/

namespace Part006

/-- Oracle for the remote operations `mintNFT` may perform. -/
structure LedgerEnv where
  balanceOf : Except String Nat
  allowance : Except String Nat
  approveSend : Except String String
  approveReceipt : Except String Nat
  claimSendStructured : Except String String
  claimSendFallback : Except String String
deriving DecidableEq

/-- Extraction `error.message.match(/reverted: (.+)/)?.[1] || "unknown reason"`:
the text after the first `"reverted: "` (empty or absent ⇒ fallback). -/
def revertReason (m : String) : String :=
  match afterFirst ("reverted: ").data m.data with
  | none => "unknown reason"
  | some r => if r = [] then "unknown reason" else ⟨r⟩

/-- The `catch` classifier of the `part_006` `mintNFT` (lines 299–315). -/
def classifyMintError (m : String) : String :=
  if includes m "rejected" || includes m "denied" then
    "Transaction rejected by user"
  else if includes m "insufficient funds" || includes m "insufficient balance" then
    "Insufficient USDC or ETH balance"
  else if includes m "DropNoActiveCondition" then
    "No active claim condition - minting may be paused"
  else if includes m "DropClaimExceedLimit" || includes m "exceed" then
    "Already claimed maximum amount"
  else if includes m "allowance" then
    "USDC allowance issue - try again"
  else if includes m "execution reverted" then
    "Transaction reverted: " ++ revertReason m
  else
    "Mint failed: " ++ (if m = "" then "Unknown error - check console for details" else m)

/-- The insufficient-balance message thrown at line 146. -/
def insufficientMsg (totalPrice balance : Nat) : String :=
  "Insufficient USDC balance. Need " ++ fmtUSDC totalPrice
    ++ " USDC, have " ++ fmtUSDC balance ++ " USDC"

/-- Steps 4/5 of the `part_006` `mintNFT`: the structured claim attempt with
manual-encoding fallback (lines 190–274).  A failure of the structured send
is swallowed and the fallback is sent; a fallback failure reaches the outer
`catch`. -/
def claimPhase (w : Wallet) (quantity : Nat) (env : LedgerEnv)
    (t : List RemoteCall) : Except String String × List RemoteCall :=
  let t5 := t ++ [.sendClaim true (claimArgs w.address quantity)]
  match env.claimSendStructured with
  | .ok h => (.ok h, t5)
  | .error _ =>
    let t6 := t5 ++ [.sendClaim false (claimArgs w.address quantity)]
    match env.claimSendFallback with
    | .ok h => (.ok h, t6)
    | .error m => (.error (classifyMintError m), t6)

/-- Function `mintNFT(quantity)` of `part_006` (lines 111–317). -/
def mintNFT (wallet : Option Wallet) (quantity : Nat) (env : LedgerEnv) :
    Except String String × List RemoteCall :=
  match wallet with
  | none => (.error "Wallet not connected", [])
  | some w =>
    if quantity < 1 || 100 < quantity then
      (.error "Quantity must be between 1 and 100", [])
    else
      let totalPrice := MINT_PRICE * quantity
      let t1 : List RemoteCall := [.readBalance w.address]
      match env.balanceOf with
      | .error m => (.error (classifyMintError m), t1)
      | .ok balance =>
        if balance < totalPrice then
          (.error (classifyMintError (insufficientMsg totalPrice balance)), t1)
        else
          let t2 := t1 ++ [.readAllowance w.address NFT_CONTRACT_ADDRESS]
          match env.allowance with
          | .error m => (.error (classifyMintError m), t2)
          | .ok allowance =>
            if allowance < totalPrice then
              let t3 := t2 ++ [.sendApprove NFT_CONTRACT_ADDRESS totalPrice]
              match env.approveSend with
              | .error m => (.error (classifyMintError m), t3)
              | .ok approveHash =>
                let t4 := t3 ++ [.awaitReceipt approveHash]
                match env.approveReceipt with
                | .error m => (.error (classifyMintError m), t4)
                | .ok _ => claimPhase w quantity env t4
            else claimPhase w quantity env t2

end Part006

/-! ## Fungible-balance helpers of `part_003` -/

namespace Part003

/-- Oracle for `getUSDCBalance`: the injected provider (`window.ethereum`)
and the two contract reads. -/
structure EthEnv where
  hasProvider : Bool
  balanceOf : Except String Nat
  decimals : Except String Nat
deriving DecidableEq

/-- Formatting `ethers.formatUnits(balance, decimals)`: decimal string with the
fractional part right-trimmed of zeros, at least one fractional digit. -/
def formatUnits (balance decimals : Nat) : String :=
  let intPart := balance / 10 ^ decimals
  let frac := balance % 10 ^ decimals
  let fracDigits := List.replicate (decimals - (natDigits frac).length) '0' ++ natDigits frac
  let trimmed := (fracDigits.reverse.dropWhile (· = '0')).reverse
  natStr intPart ++ "." ++ ⟨if trimmed = [] then ['0'] else trimmed⟩

/-- Function `getUSDCBalance(address)` of `part_003` (lines 57–75).  Total: every
fault path returns a string, never a thrown error. -/
def getUSDCBalance (env : EthEnv) (address : String) : String :=
  if !env.hasProvider then "0.00"
  else
    match env.balanceOf, env.decimals with
    | .ok b, .ok d => formatUnits b d
    | _, _ => "0.00"

end Part003

/-! ## Console state machine (`useTerminal` in `client/src/main.tsx`,
input element in `components/Terminal.tsx`)

State fields mirror the useState hooks; `historyIndex` is the JS number
`-1 | 0..history.length-1`, modelled as `Int`.  Each submitted command runs
to completion (the dispatcher is single-flight), so `executeCommand` maps a
pre-state to the post-state once the `finally` block has reset
`isProcessing`; the states with `isProcessing = true` are the mid-execution
states at which `handleKeyDown` and the disabled input reject events. -/

/-- Enumeration `TerminalLine.type` (`shared/schema.ts`). -/
inductive LineType : Type where
  | command
  | output
  | error
  | info
deriving DecidableEq

/-- A transcript line: kind and text (`id`/`timestamp` not modelled). -/
structure TerminalLine where
  type : LineType
  text : String
deriving DecidableEq

/-- The `useTerminal` hook state. -/
structure TerminalState where
  lines : List TerminalLine
  currentInput : String
  commandHistory : List String
  historyIndex : Int
  isProcessing : Bool
deriving DecidableEq

/-- One call from the dispatcher into the Web3 context (each such call is
the start of zero or more remote operations). -/
inductive ActionCall : Type where
  | connectWallet
  | mintNFT
  | getBalance
  | getNFTs
deriving DecidableEq

/-- Oracle for the async actions `executeCommand` may await. -/
structure ConsoleEnv where
  wallet : Option Wallet
  connectResult : Except String Unit
  mintResult : Except String String
  balanceResult : Except String Balance
  nftsResult : Except String (List NFT)
deriving DecidableEq

/-- Check `wallet?.isConnected` (JS optional chaining: `none` reads as false). -/
def walletConnected (wallet : Option Wallet) : Bool :=
  match wallet with
  | some w => w.isConnected
  | none => false

/-- The welcome banner (both the mount effect and the `clear` branch build
this same six-line list). -/
def welcomeLines : List TerminalLine :=
  [ { type := .info, text := "CMD402 NFT Terminal v1.0.0" }
  , { type := .info, text := "Base Chain NFT Minting Interface" }
  , { type := .info, text := "Contract: 0x859078e89E58B0Ab0021755B95360f48fBa763dd" }
  , { type := .info, text := "" }
  , { type := .info, text := "Type \x27help\x27 for available commands" }
  , { type := .info, text := "" } ]

/-- The `help` catalogue lines. -/
def helpLines : List TerminalLine :=
  [ { type := .output, text := "" }
  , { type := .output, text := "Available commands:" }
  , { type := .output, text := "  connect    - Connect your wallet to Base chain" }
  , { type := .output, text := "  mint       - Mint a new NFT (requires USDC payment)" }
  , { type := .output, text := "  balance    - Check your USDC and ETH balances" }
  , { type := .output, text := "  nfts       - Display your NFT collection" }
  , { type := .output, text := "  clear      - Clear terminal screen" }
  , { type := .output, text := "  help       - Show this help message" }
  , { type := .output, text := "" } ]

/-- Shortening `s.slice(0, 6)...s.slice(-4)` of an address. -/
def shortAddress (a : String) : String :=
  ⟨a.data.take 6⟩ ++ "..." ++ ⟨a.data.drop (a.data.length - 4)⟩

/-- Shortening `txHash.slice(0, 10)...txHash.slice(-8)` of a hash. -/
def shortHash (h : String) : String :=
  ⟨h.data.take 10⟩ ++ "..." ++ ⟨h.data.drop (h.data.length - 8)⟩

/-- Lines emitted by the `connect` branch (after the command echo). -/
def connectOutput (env : ConsoleEnv) : List TerminalLine × List ActionCall :=
  let body : List TerminalLine × List ActionCall :=
    match env.wallet with
    | some w =>
      if w.isConnected then
        ([ { type := .info, text := "Already connected: " ++ shortAddress w.address }
         , { type := .info, text := "Chain ID: " ++ natStr w.chainId ++ " (Base)" } ], [])
      else
        ( [ { type := .info, text := "Initializing wallet connection..." }
          , { type := .info, text := "Please approve the connection in your wallet" } ]
            ++ (match env.connectResult with
              | .ok _ =>
                [ { type := .info, text := "✓ Wallet connected successfully" }
                , { type := .info, text := "✓ Base Chain active" } ]
              | .error m =>
                [ { type := .error, text := "Connection failed: " ++ m } ])
        , [.connectWallet] )
    | none =>
      ( [ { type := .info, text := "Initializing wallet connection..." }
        , { type := .info, text := "Please approve the connection in your wallet" } ]
          ++ (match env.connectResult with
            | .ok _ =>
              [ { type := .info, text := "✓ Wallet connected successfully" }
              , { type := .info, text := "✓ Base Chain active" } ]
            | .error m =>
              [ { type := .error, text := "Connection failed: " ++ m } ])
      , [.connectWallet] )
  ({ type := .output, text := "" } :: body.1 ++ [{ type := .output, text := "" }], body.2)

/-- Lines emitted by the `mint` branch (after the command echo). -/
def mintOutput (env : ConsoleEnv) : List TerminalLine × List ActionCall :=
  if walletConnected env.wallet then
    ( { type := .output, text := "" }
        :: [ { type := .info, text := "Preparing to mint NFT..." }
           , { type := .info, text := "This requires USDC payment approval" } ]
        ++ (match env.mintResult with
          | .ok txHash =>
            [ { type := .info, text := "✓ NFT minted successfully" }
            , { type := .info, text := "Transaction: " ++ shortHash txHash } ]
          | .error m =>
            [ { type := .error, text := "Mint failed: " ++ m } ])
        ++ [{ type := .output, text := "" }]
    , [.mintNFT] )
  else
    ( [ { type := .output, text := "" }
      , { type := .error, text := "Wallet not connected. Run \x27connect\x27 first." }
      , { type := .output, text := "" } ]
    , [] )

/-- Lines emitted by the `balance` branch (after the command echo). -/
def balanceOutput (env : ConsoleEnv) : List TerminalLine × List ActionCall :=
  if walletConnected env.wallet then
    ( { type := .output, text := "" }
        :: [{ type := .info, text := "Fetching balances..." }]
        ++ (match env.balanceResult with
          | .ok b =>
            [ { type := .output, text := "" }
            , { type := .info, text := "USDC Balance: " ++ b.usdc ++ " USDC" }
            , { type := .info, text := "ETH Balance:  " ++ b.native ++ " ETH" } ]
          | .error m =>
            [ { type := .error, text := "Failed to fetch balances: " ++ m } ])
        ++ [{ type := .output, text := "" }]
    , [.getBalance] )
  else
    ( [ { type := .output, text := "" }
      , { type := .error, text := "Wallet not connected. Run \x27connect\x27 first." }
      , { type := .output, text := "" } ]
    , [] )

/-- One `nfts` listing line: `  ${index + 1}. ${nft.name} (Token #${nft.tokenId})`. -/
def nftLine (idx : Nat) (nft : NFT) : TerminalLine :=
  { type := .output
    text := "  " ++ natStr (idx + 1) ++ ". " ++ nft.name ++ " (Token #" ++ nft.tokenId ++ ")" }

/-- Lines emitted by the `nfts` branch (after the command echo). -/
def nftsOutput (env : ConsoleEnv) : List TerminalLine × List ActionCall :=
  if walletConnected env.wallet then
    ( { type := .output, text := "" }
        :: [{ type := .info, text := "Loading your NFT collection..." }]
        ++ (match env.nftsResult with
          | .ok nfts =>
            { type := .output, text := "" }
              :: (if nfts.length = 0 then
                    [{ type := .info, text := "No NFTs found in your wallet" }]
                  else
                    { type := .info
                      text := "Found " ++ natStr nfts.length ++ " NFT"
                        ++ (if 1 < nfts.length then "s" else "") ++ ":" }
                      :: (List.range nfts.length).zipWith nftLine nfts)
          | .error m =>
            [ { type := .error, text := "Failed to load NFTs: " ++ m } ])
        ++ [{ type := .output, text := "" }]
    , [.getNFTs] )
  else
    ( [ { type := .output, text := "" }
      , { type := .error, text := "Wallet not connected. Run \x27connect\x27 first." }
      , { type := .output, text := "" } ]
    , [] )

/-- The `switch (command)` dispatch of `executeCommand` (lines 124–264)
applied after the echo/history updates; returns the final state and the
context actions invoked. -/
def runCommand (command trimmedInput : String) (env : ConsoleEnv)
    (st : TerminalState) : TerminalState × List ActionCall :=
  let echoed : TerminalState :=
    { st with
      commandHistory := st.commandHistory ++ [trimmedInput]
      historyIndex := -1
      lines := st.lines ++ [{ type := .command, text := "> " ++ trimmedInput }] }
  if command = "help" then
    ({ echoed with lines := echoed.lines ++ helpLines, isProcessing := false }, [])
  else if command = "clear" then
    ({ echoed with lines := welcomeLines, isProcessing := false }, [])
  else if command = "connect" then
    let r := connectOutput env
    ({ echoed with lines := echoed.lines ++ r.1, isProcessing := false }, r.2)
  else if command = "mint" then
    let r := mintOutput env
    ({ echoed with lines := echoed.lines ++ r.1, isProcessing := false }, r.2)
  else if command = "balance" then
    let r := balanceOutput env
    ({ echoed with lines := echoed.lines ++ r.1, isProcessing := false }, r.2)
  else if command = "nfts" then
    let r := nftsOutput env
    ({ echoed with lines := echoed.lines ++ r.1, isProcessing := false }, r.2)
  else
    ({ echoed with
        lines := echoed.lines
          ++ [ { type := .error, text := "Command not found: " ++ command }
             , { type := .output, text := "Type \x27help\x27 for available commands" }
             , { type := .output, text := "" } ]
        isProcessing := false }, [])

/-- Function `executeCommand(input)` (lines 108–271): no-op on all-whitespace input,
otherwise echo + history append + cursor reset + dispatch; the `finally`
leaves `isProcessing` false. -/
def executeCommand (input : String) (env : ConsoleEnv) (st : TerminalState) :
    TerminalState × List ActionCall :=
  if jsTrim input = "" then (st, [])
  else
    let trimmedInput := jsTrim input
    let command := firstToken (jsToLower trimmedInput)
    runCommand command trimmedInput env st

/-- Keyboard events `handleKeyDown` intercepts. -/
inductive Key : Type where
  | enter
  | arrowUp
  | arrowDown
deriving DecidableEq

/-- Handler `handleKeyDown` (lines 273–305): ignored entirely while processing;
Enter submits a non-blank buffer and clears it; ArrowUp/ArrowDown navigate
the history ring, saturating at the oldest entry and clearing the buffer
past the newest. -/
def upIndex (st : TerminalState) : Int :=
  if st.historyIndex = -1 then (st.commandHistory.length : Int) - 1
  else max 0 (st.historyIndex - 1)

/-- The ArrowUp branch of `handleKeyDown` (when not processing): saturating
move toward the oldest entry, copying it into the buffer. -/
def arrowUpState (st : TerminalState) : TerminalState :=
  if 0 < st.commandHistory.length then
    { st with
        historyIndex := upIndex st
        currentInput := st.commandHistory.getD (upIndex st).toNat "" }
  else st

/-- The ArrowDown branch of `handleKeyDown` (when not processing): move
toward "not browsing", clearing the buffer past the newest entry. -/
def arrowDownState (st : TerminalState) : TerminalState :=
  if st.historyIndex ≠ -1 then
    if (st.commandHistory.length : Int) ≤ st.historyIndex + 1 then
      { st with historyIndex := -1, currentInput := "" }
    else
      { st with
          historyIndex := st.historyIndex + 1
          currentInput := st.commandHistory.getD (st.historyIndex + 1).toNat "" }
  else st

def handleKeyDown (key : Key) (env : ConsoleEnv) (st : TerminalState) :
    TerminalState × List ActionCall :=
  if st.isProcessing then (st, [])
  else
    match key with
    | .enter =>
      if jsTrim st.currentInput = "" then (st, [])
      else
        let r := executeCommand st.currentInput env st
        ({ r.1 with currentInput := "" }, r.2)
    | .arrowUp => (arrowUpState st, [])
    | .arrowDown => (arrowDownState st, [])

/-- The controlled input element of `Terminal.tsx` (lines 79–91):
`onChange` copies the element value into `currentInput`, but the element
carries `disabled={isProcessing}`, so no change event fires (and no
character is accepted) while a command is executing. -/
def onInputChange (value : String) (st : TerminalState) : TerminalState :=
  if st.isProcessing then st else { st with currentInput := value }

/-! ## Claim theorems -/

/-- **C5.** For every submitted input whose first token is not one of the six
recognized keywords, the transcript gains the `Command` echo line
`"> <input>"`, then the `Error` line `"Command not found: <token>"`, then the
`Output` hint line referring to `help` (and a blank `Output` line), and the
command history gains the (trimmed) input; no context action is invoked. -/
theorem unknown_command_transcript (input : String) (env : ConsoleEnv)
    (st : TerminalState) (hne : jsTrim input ≠ "")
    (h1 : firstToken (jsToLower (jsTrim input)) ≠ "help")
    (h2 : firstToken (jsToLower (jsTrim input)) ≠ "clear")
    (h3 : firstToken (jsToLower (jsTrim input)) ≠ "connect")
    (h4 : firstToken (jsToLower (jsTrim input)) ≠ "mint")
    (h5 : firstToken (jsToLower (jsTrim input)) ≠ "balance")
    (h6 : firstToken (jsToLower (jsTrim input)) ≠ "nfts") :
    executeCommand input env st =
      ({ st with
          lines := st.lines ++
            [ { type := .command, text := "> " ++ jsTrim input }
            , { type := .error
                text := "Command not found: " ++ firstToken (jsToLower (jsTrim input)) }
            , { type := .output, text := "Type \x27help\x27 for available commands" }
            , { type := .output, text := "" } ]
          commandHistory := st.commandHistory ++ [jsTrim input]
          historyIndex := -1
          isProcessing := false }, []) := by
  unfold executeCommand runCommand
  rw [if_neg hne, if_neg h1, if_neg h2, if_neg h3, if_neg h4, if_neg h5, if_neg h6]
  simp [List.append_assoc]

/-- A sample console environment: no wallet, all remote actions failing. -/
def sampleEnvDisconnected : ConsoleEnv :=
  { wallet := none
    connectResult := .error "Connect button not found. Please refresh the page."
    mintResult := .error "Wallet not connected"
    balanceResult := .error "Wallet not connected"
    nftsResult := .error "Wallet not connected" }

/-- A sample console environment: connected wallet, all actions succeeding. -/
def sampleEnvConnected : ConsoleEnv :=
  { wallet := some { address := "0xabcdef1234567890", chainId := 8453, isConnected := true }
    connectResult := .ok ()
    mintResult := .ok "0x1234567890abcdef1234"
    balanceResult := .ok { usdc := "1.00", native := "0.0100" }
    nftsResult := .ok [] }

/-- A sample idle console state holding only the welcome banner. -/
def sampleState : TerminalState :=
  { lines := welcomeLines
    currentInput := ""
    commandHistory := []
    historyIndex := -1
    isProcessing := false }

/-- **C5 witness.** Submitting `"foo"` on a concrete state: the echo, the
"Command not found" error, the help hint, and the history entry. -/
theorem unknown_command_transcript_witness :
    executeCommand "foo" sampleEnvDisconnected sampleState =
      ({ lines :=
            welcomeLines ++
              [ { type := .command, text := "> foo" }
              , { type := .error, text := "Command not found: foo" }
              , { type := .output, text := "Type \x27help\x27 for available commands" }
              , { type := .output, text := "" } ]
         currentInput := ""
         commandHistory := ["foo"]
         historyIndex := -1
         isProcessing := false }, []) := by
  have h := unknown_command_transcript "foo" sampleEnvDisconnected sampleState
    (by decide) (by decide) (by decide) (by decide) (by decide) (by decide) (by decide)
  simpa [sampleState] using h

/-- **C7 (counterexample).** Executing `clear` does not leave the command
history unchanged: every submitted input — `clear` included — is appended to
the history before the switch dispatches, so a history `["help"]` becomes
`["help", "clear"]`. -/
theorem clear_appends_to_history :
    (executeCommand "clear" sampleEnvDisconnected
        { sampleState with commandHistory := ["help"] }).1.commandHistory
      = ["help", "clear"]
    ∧ ["help", "clear"] ≠ ["help"] := by
  exact ⟨by decide, by decide⟩

/-- **C7 (amended).** From every console state, executing `clear` resets the
transcript to exactly the six welcome-banner lines and invokes no context
action (hence no remote call); the prior command history is preserved, with
the submitted `clear` input itself appended (history persists across
clears), and the cursor is reset. -/
theorem clear_resets_transcript (env : ConsoleEnv) (st : TerminalState) :
    executeCommand "clear" env st =
      ({ st with
          lines := welcomeLines
          commandHistory := st.commandHistory ++ ["clear"]
          historyIndex := -1
          isProcessing := false }, [])
    ∧ welcomeLines.length = 6 := by
  constructor
  · rfl
  · rfl

/-- **C4.** A mint invocation with no connected wallet session fails
immediately: the orchestrator throws `"Wallet not connected"` having issued
zero remote calls (no reads, no writes), and the dispatcher `mint` branch
emits the fixed not-connected `Error` line without invoking any context
action. -/
theorem mint_not_connected (lenv : Web3Context.LedgerEnv) (env : ConsoleEnv)
    (st : TerminalState) (hw : env.wallet = none) :
    Web3Context.mintNFT none lenv = (.error "Wallet not connected", [])
    ∧ executeCommand "mint" env st =
        ({ st with
            lines := st.lines ++
              [ { type := .command, text := "> mint" }
              , { type := .output, text := "" }
              , { type := .error, text := "Wallet not connected. Run \x27connect\x27 first." }
              , { type := .output, text := "" } ]
            commandHistory := st.commandHistory ++ ["mint"]
            historyIndex := -1
            isProcessing := false }, []) := by
  refine ⟨rfl, ?_⟩
  show runCommand "mint" "mint" env st = _
  unfold runCommand mintOutput walletConnected
  rw [hw]
  simp [List.append_assoc]

/-- **C4 witness.** `mint` with no wallet on a concrete state. -/
theorem mint_not_connected_witness :
    Web3Context.mintNFT none
        { allowance := .ok 0, approveSend := .ok "0xa", claimSend := .ok "0xc" }
      = (.error "Wallet not connected", [])
    ∧ (executeCommand "mint" sampleEnvDisconnected sampleState).2 = [] := by
  have h := mint_not_connected
    { allowance := .ok 0, approveSend := .ok "0xa", claimSend := .ok "0xc" }
    sampleEnvDisconnected sampleState rfl
  exact ⟨h.1, by rw [h.2]⟩

/-- **C6 (counterexample).** Character input is not accepted into the input
buffer while a command is executing: the input element is rendered with
`disabled={isProcessing}` (`Terminal.tsx`), so during execution a typed
character leaves the buffer unchanged (here: still `""`, not `"a"`). -/
theorem busy_typing_rejected :
    onInputChange "a" { sampleState with isProcessing := true }
        = { sampleState with isProcessing := true }
    ∧ ({ sampleState with isProcessing := true } : TerminalState).currentInput = "" := by
  exact ⟨rfl, rfl⟩

/-- **C6 (amended).** While a command is executing (`isProcessing`), a
second Enter — indeed every key event — has no observable effect on history,
transcript, buffer or remote state, and character input is not accepted
either: the input element is disabled during execution, so the buffer stays
as it was until the command completes. -/
theorem busy_console_ignores_input (st : TerminalState) (env : ConsoleEnv)
    (key : Key) (value : String) (h : st.isProcessing = true) :
    handleKeyDown key env st = (st, []) ∧ onInputChange value st = st := by
  constructor
  · unfold handleKeyDown
    rw [h]
    simp
  · unfold onInputChange
    rw [h]
    simp

/-- **C6 witness.** A concrete busy state ignores Enter and typing. -/
theorem busy_console_ignores_input_witness :
    handleKeyDown .enter sampleEnvConnected
        { sampleState with isProcessing := true, currentInput := "mint" }
      = ({ sampleState with isProcessing := true, currentInput := "mint" }, [])
    ∧ onInputChange "mintx"
        { sampleState with isProcessing := true, currentInput := "mint" }
      = { sampleState with isProcessing := true, currentInput := "mint" } :=
  busy_console_ignores_input
    { sampleState with isProcessing := true, currentInput := "mint" }
    sampleEnvConnected .enter "mintx" rfl

theorem arrowUpState_isProcessing (st : TerminalState) :
    (arrowUpState st).isProcessing = st.isProcessing := by
  unfold arrowUpState
  split <;> rfl

theorem arrowDownState_isProcessing (st : TerminalState) :
    (arrowDownState st).isProcessing = st.isProcessing := by
  unfold arrowDownState
  split
  · split <;> rfl
  · rfl

theorem arrowUp_saturated (st : TerminalState)
    (hne : st.commandHistory ≠ []) (h0 : (arrowUpState st).historyIndex = 0) :
    arrowUpState (arrowUpState st) = arrowUpState st := by
  obtain ⟨lines, currentInput, history, idx, proc⟩ := st
  have hlen : 0 < history.length := List.length_pos.mpr hne
  simp only [arrowUpState, upIndex, if_pos hlen, TerminalState.historyIndex] at h0 ⊢
  rw [h0]
  norm_num

theorem arrowDown_exits_browsing (st : TerminalState)
    (hidx : -1 ≤ st.historyIndex) (hne1 : st.historyIndex ≠ -1)
    (hafter : (arrowDownState st).historyIndex = -1) :
    (arrowDownState st).currentInput = ""
    ∧ arrowDownState (arrowDownState st) = arrowDownState st := by
  obtain ⟨lines, currentInput, history, idx, proc⟩ := st
  simp only [arrowDownState] at hafter ⊢
  simp only [TerminalState.historyIndex, TerminalState.commandHistory,
    TerminalState.currentInput] at hafter hidx hne1 ⊢
  rw [if_pos hne1] at hafter
  split at hafter
  · rename_i hle
    rw [if_pos hne1, if_pos hle]
    norm_num
  · rename_i hlt
    simp only [TerminalState.historyIndex] at hafter
    omega

/-- **C8.** History navigation is idempotent at both boundaries: once an
ArrowUp press has saturated the cursor at the oldest entry (index 0),
a further ArrowUp changes nothing — in particular the input buffer; and
the ArrowDown press that moves the cursor back to "not browsing" (`-1`)
clears the buffer, after which a further ArrowDown changes nothing, leaving
the buffer empty.  (`-1 ≤ historyIndex` is the cursor range invariant every
reachable state satisfies.) -/
theorem history_navigation_boundary (st : TerminalState) (env : ConsoleEnv)
    (hne : st.commandHistory ≠ []) (hidx : -1 ≤ st.historyIndex) :
    ((handleKeyDown .arrowUp env st).1.historyIndex = 0 →
      handleKeyDown .arrowUp env (handleKeyDown .arrowUp env st).1
        = ((handleKeyDown .arrowUp env st).1, []))
    ∧ (st.historyIndex ≠ -1 →
      (handleKeyDown .arrowDown env st).1.historyIndex = -1 →
        (handleKeyDown .arrowDown env st).1.currentInput = ""
        ∧ handleKeyDown .arrowDown env (handleKeyDown .arrowDown env st).1
            = ((handleKeyDown .arrowDown env st).1, [])) := by
  by_cases hproc : st.isProcessing = true
  · constructor
    · intro h0
      simp only [handleKeyDown, if_pos hproc] at h0 ⊢
    · intro hne1 hafter
      simp only [handleKeyDown, if_pos hproc] at hafter
      exact absurd hafter hne1
  · have hproc' : st.isProcessing = false := by
      cases h : st.isProcessing
      · rfl
      · exact absurd h hproc
    constructor
    · intro h0
      simp only [handleKeyDown, hproc', Bool.false_eq_true, if_false] at h0 ⊢
      rw [arrowUpState_isProcessing, hproc']
      simp only [Bool.false_eq_true, if_false]
      rw [arrowUp_saturated st hne h0]
    · intro hne1 hafter
      simp only [handleKeyDown, hproc', Bool.false_eq_true, if_false] at hafter ⊢
      have hd := arrowDown_exits_browsing st hidx hne1 hafter
      rw [arrowDownState_isProcessing, hproc']
      simp only [Bool.false_eq_true, if_false]
      exact ⟨hd.1, by rw [hd.2]⟩

/-- A concrete state mid-browse (cursor on the newest of two entries). -/
def stNav : TerminalState :=
  { lines := []
    currentInput := "nfts"
    commandHistory := ["balance", "nfts"]
    historyIndex := 1
    isProcessing := false }

/-- **C8 witness.** On `stNav`, ArrowUp saturates at the oldest entry and a
further ArrowUp is a no-op; ArrowDown exits browsing with an empty buffer
and a further ArrowDown is a no-op. -/
theorem history_navigation_boundary_witness :
    handleKeyDown .arrowUp sampleEnvConnected
        (handleKeyDown .arrowUp sampleEnvConnected stNav).1
      = ((handleKeyDown .arrowUp sampleEnvConnected stNav).1, [])
    ∧ (handleKeyDown .arrowDown sampleEnvConnected stNav).1.currentInput = ""
    ∧ handleKeyDown .arrowDown sampleEnvConnected
        (handleKeyDown .arrowDown sampleEnvConnected stNav).1
      = ((handleKeyDown .arrowDown sampleEnvConnected stNav).1, []) := by
  have h := history_navigation_boundary stNav sampleEnvConnected
    (by decide) (by decide)
  have hdown := h.2 (by decide) (by decide)
  exact ⟨h.1 (by decide), hdown.1, hdown.2⟩

/-- The lines a command execution appended to the transcript. -/
def emittedLines (st : TerminalState) (st' : TerminalState) : List TerminalLine :=
  st'.lines.drop st.lines.length

/-- The `Error` lines of a line list. -/
def errorLines (ls : List TerminalLine) : List TerminalLine :=
  ls.filter (fun l => l.type == LineType.error)

/-- **C9.** No failure is silently dropped and none crashes the console:
whenever the action behind `mint`, `connect`, `balance` or `nfts` rejects,
the dispatch appends exactly one `Error` line carrying the human message
(`"Mint failed: …"`, `"Connection failed: …"`, `"Failed to fetch
balances: …"`, `"Failed to load NFTs: …"`), and every dispatch of a
non-blank input ends back at `isProcessing = false` (the `finally`), so the
console stays usable. -/
theorem dispatcher_error_lines (st : TerminalState) (env : ConsoleEnv) (m : String) :
    (walletConnected env.wallet = true → env.mintResult = .error m →
      errorLines (emittedLines st (executeCommand "mint" env st).1)
        = [{ type := .error, text := "Mint failed: " ++ m }])
    ∧ (walletConnected env.wallet = false → env.connectResult = .error m →
      errorLines (emittedLines st (executeCommand "connect" env st).1)
        = [{ type := .error, text := "Connection failed: " ++ m }])
    ∧ (walletConnected env.wallet = true → env.balanceResult = .error m →
      errorLines (emittedLines st (executeCommand "balance" env st).1)
        = [{ type := .error, text := "Failed to fetch balances: " ++ m }])
    ∧ (walletConnected env.wallet = true → env.nftsResult = .error m →
      errorLines (emittedLines st (executeCommand "nfts" env st).1)
        = [{ type := .error, text := "Failed to load NFTs: " ++ m }])
    ∧ (∀ input, jsTrim input ≠ "" →
      ((executeCommand input env st).1).isProcessing = false) := by
  refine ⟨?_, ?_, ?_, ?_, ?_⟩
  · intro hconn hm
    have h1 : executeCommand "mint" env st
        = ({ st with
              lines := (st.lines ++ [{ type := .command, text := "> mint" }])
                ++ (mintOutput env).1
              commandHistory := st.commandHistory ++ ["mint"]
              historyIndex := -1
              isProcessing := false }, (mintOutput env).2) := rfl
    rw [h1]
    simp only [emittedLines, List.append_assoc, List.drop_left]
    simp only [mintOutput, if_pos hconn, hm]
    simp [errorLines]
  · intro hconn hc
    have h1 : executeCommand "connect" env st
        = ({ st with
              lines := (st.lines ++ [{ type := .command, text := "> connect" }])
                ++ (connectOutput env).1
              commandHistory := st.commandHistory ++ ["connect"]
              historyIndex := -1
              isProcessing := false }, (connectOutput env).2) := rfl
    rw [h1]
    simp only [emittedLines, List.append_assoc, List.drop_left]
    simp only [connectOutput, hc]
    match henv : env.wallet with
    | some w =>
      have hwc : w.isConnected = false := by
        unfold walletConnected at hconn
        rw [henv] at hconn
        exact hconn
      simp [hwc, errorLines]
    | none =>
      simp [errorLines]
  · intro hconn hb
    have h1 : executeCommand "balance" env st
        = ({ st with
              lines := (st.lines ++ [{ type := .command, text := "> balance" }])
                ++ (balanceOutput env).1
              commandHistory := st.commandHistory ++ ["balance"]
              historyIndex := -1
              isProcessing := false }, (balanceOutput env).2) := rfl
    rw [h1]
    simp only [emittedLines, List.append_assoc, List.drop_left]
    simp only [balanceOutput, if_pos hconn, hb]
    simp [errorLines]
  · intro hconn hn
    have h1 : executeCommand "nfts" env st
        = ({ st with
              lines := (st.lines ++ [{ type := .command, text := "> nfts" }])
                ++ (nftsOutput env).1
              commandHistory := st.commandHistory ++ ["nfts"]
              historyIndex := -1
              isProcessing := false }, (nftsOutput env).2) := rfl
    rw [h1]
    simp only [emittedLines, List.append_assoc, List.drop_left]
    simp only [nftsOutput, if_pos hconn, hn]
    simp [errorLines]
  · intro input hne
    unfold executeCommand
    rw [if_neg hne]
    unfold runCommand
    dsimp only
    split_ifs <;> rfl

/-- **C9 witness.** A connected wallet with a failing mint action yields
exactly the single `"Mint failed: boom"` error line, and dispatch ends
idle. -/
theorem dispatcher_error_lines_witness :
    errorLines (emittedLines sampleState
        (executeCommand "mint"
          { sampleEnvConnected with mintResult := .error "boom" } sampleState).1)
      = [{ type := .error, text := "Mint failed: boom" }]
    ∧ ((executeCommand "mint"
          { sampleEnvConnected with mintResult := .error "boom" } sampleState).1).isProcessing
        = false := by
  have h := dispatcher_error_lines sampleState
    { sampleEnvConnected with mintResult := .error "boom" } "boom"
  exact ⟨h.1 (by decide) rfl, h.2.2.2.2 "mint" (by decide)⟩

/-- **C2.** When the standing spend authorization already covers the
required amount (`allowance ≥ MINT_PRICE`), `mintNFT` issues zero
`approve` writes and proceeds directly to exactly one claim submission:
its remote trace is exactly the allowance read followed by the claim
write, whatever the claim submission then returns. -/
theorem mint_skips_approval (w : Wallet) (env : Web3Context.LedgerEnv) (a : Nat)
    (ha : env.allowance = .ok a) (hge : MINT_PRICE ≤ a) :
    (Web3Context.mintNFT (some w) env).2
        = [ RemoteCall.readAllowance w.address NFT_CONTRACT_ADDRESS
          , RemoteCall.sendClaim false (claimArgs w.address 1) ]
    ∧ ((Web3Context.mintNFT (some w) env).2.filter RemoteCall.isApproveWrite) = []
    ∧ ((Web3Context.mintNFT (some w) env).2.filter RemoteCall.isClaimWrite).length = 1 := by
  have htrace : (Web3Context.mintNFT (some w) env).2
      = [ RemoteCall.readAllowance w.address NFT_CONTRACT_ADDRESS
        , RemoteCall.sendClaim false (claimArgs w.address 1) ] := by
    unfold Web3Context.mintNFT
    rw [ha]
    dsimp only
    rw [if_neg (by omega : ¬ a < MINT_PRICE)]
    cases env.claimSend <;> rfl
  refine ⟨htrace, ?_, ?_⟩
  · rw [htrace]
    rfl
  · rw [htrace]
    rfl

/-- **C2 witness.** A wallet with allowance exactly `MINT_PRICE`. -/
theorem mint_skips_approval_witness :
    (Web3Context.mintNFT
        (some { address := "0xholder", chainId := 8453, isConnected := true })
        { allowance := .ok 1000000, approveSend := .ok "0xa", claimSend := .ok "0xc" }).2
      = [ RemoteCall.readAllowance "0xholder" NFT_CONTRACT_ADDRESS
        , RemoteCall.sendClaim false (claimArgs "0xholder" 1) ] :=
  (mint_skips_approval
    { address := "0xholder", chainId := 8453, isConnected := true }
    { allowance := .ok 1000000, approveSend := .ok "0xa", claimSend := .ok "0xc" }
    1000000 rfl (by decide)).1

/-- **C3.** With sufficient balance and zero prior authorization, a
successful mint issues exactly one `approve` write for exactly the required
total price, awaits the on-chain receipt of that write before submitting anything
else (visible in the trace order), then issues exactly one claim write, and
returns the hash `hC` of the claim transaction — not the approval hash `hA`. -/
theorem mint_approves_then_claims (w : Wallet) (env : Part006.LedgerEnv)
    (q b : Nat) (hA hC : String) (blk : Nat)
    (hq1 : 1 ≤ q) (hq2 : q ≤ 100)
    (hbal : env.balanceOf = .ok b) (hble : MINT_PRICE * q ≤ b)
    (hallow : env.allowance = .ok 0)
    (happrove : env.approveSend = .ok hA)
    (hreceipt : env.approveReceipt = .ok blk)
    (hclaim : env.claimSendStructured = .ok hC) :
    Part006.mintNFT (some w) q env
        = (.ok hC,
           [ RemoteCall.readBalance w.address
           , RemoteCall.readAllowance w.address NFT_CONTRACT_ADDRESS
           , RemoteCall.sendApprove NFT_CONTRACT_ADDRESS (MINT_PRICE * q)
           , RemoteCall.awaitReceipt hA
           , RemoteCall.sendClaim true (claimArgs w.address q) ])
    ∧ ((Part006.mintNFT (some w) q env).2.filter RemoteCall.isApproveWrite)
        = [RemoteCall.sendApprove NFT_CONTRACT_ADDRESS (MINT_PRICE * q)]
    ∧ ((Part006.mintNFT (some w) q env).2.filter RemoteCall.isClaimWrite)
        = [RemoteCall.sendClaim true (claimArgs w.address q)] := by
  have hrun : Part006.mintNFT (some w) q env
      = (.ok hC,
         [ RemoteCall.readBalance w.address
         , RemoteCall.readAllowance w.address NFT_CONTRACT_ADDRESS
         , RemoteCall.sendApprove NFT_CONTRACT_ADDRESS (MINT_PRICE * q)
         , RemoteCall.awaitReceipt hA
         , RemoteCall.sendClaim true (claimArgs w.address q) ]) := by
    unfold Part006.mintNFT
    dsimp only
    rw [if_neg (show ¬ ((decide (q < 1) || decide (100 < q)) = true) by simp; omega)]
    rw [hbal]
    dsimp only
    rw [if_neg (by omega : ¬ b < MINT_PRICE * q), hallow]
    dsimp only
    rw [if_pos (Nat.mul_pos (by decide) (by omega : 0 < q)), happrove]
    dsimp only
    rw [hreceipt]
    unfold Part006.claimPhase
    rw [hclaim]
    rfl
  refine ⟨hrun, ?_, ?_⟩
  · rw [hrun]
    rfl
  · rw [hrun]
    rfl

/-- **C3 witness.** Scenario B at quantity 1: balance 2 USDC, zero
allowance, all sends succeeding. -/
theorem mint_approves_then_claims_witness :
    Part006.mintNFT
        (some { address := "0xholder", chainId := 8453, isConnected := true }) 1
        { balanceOf := .ok 2000000, allowance := .ok 0, approveSend := .ok "0xapprove"
          approveReceipt := .ok 7, claimSendStructured := .ok "0xclaim"
          claimSendFallback := .error "unused" }
      = (.ok "0xclaim",
         [ RemoteCall.readBalance "0xholder"
         , RemoteCall.readAllowance "0xholder" NFT_CONTRACT_ADDRESS
         , RemoteCall.sendApprove NFT_CONTRACT_ADDRESS 1000000
         , RemoteCall.awaitReceipt "0xapprove"
         , RemoteCall.sendClaim true (claimArgs "0xholder" 1) ]) := by
  have h := (mint_approves_then_claims
    { address := "0xholder", chainId := 8453, isConnected := true }
    { balanceOf := .ok 2000000, allowance := .ok 0, approveSend := .ok "0xapprove"
      approveReceipt := .ok 7, claimSendStructured := .ok "0xclaim"
      claimSendFallback := .error "unused" }
    1 2000000 "0xapprove" "0xclaim" 7
    (by decide) (by decide) rfl (by decide) rfl rfl rfl rfl).1
  simpa using h

/-- Character class of the formatted amounts: digits and the decimal dot. -/
def isAmountChar (c : Char) : Prop := c.isDigit = true ∨ c = '.'

instance : DecidablePred isAmountChar := fun c => by
  unfold isAmountChar
  infer_instance

/-- No pattern free of digits and dots can occur in an insufficient-balance
message unless it occurs in one of the three fixed text fragments around the
two formatted amounts. -/
theorem not_includes_insufficientMsg (pat : String)
    (hfree : ∀ c ∈ pat.data, ¬ isAmountChar c)
    (h1 : occursIn pat.data ("Insufficient USDC balance. Need ").data = false)
    (h2 : occursIn pat.data (" USDC, have ").data = false)
    (h3 : occursIn pat.data (" USDC").data = false)
    (t b : Nat) :
    includes (Part006.insufficientMsg t b) pat = false := by
  by_contra hmem
  have hocc : occursIn pat.data (Part006.insufficientMsg t b).data = true := by
    unfold includes at hmem
    cases h : occursIn pat.data (Part006.insufficientMsg t b).data
    · exact absurd h hmem
    · rfl
  unfold Part006.insufficientMsg at hocc
  simp only [data_append, List.append_assoc] at hocc
  rcases occursIn_append_sep isAmountChar pat.data
      ("Insufficient USDC balance. Need ").data (fmtUSDC t).data
      ((" USDC, have ").data ++ ((fmtUSDC b).data ++ (" USDC").data))
      hfree (fun c hc => fmtUSDC_chars t c hc) (fmtUSDC_ne_nil t)
      (by rw [List.append_assoc]; exact hocc) with hA | hrest
  · rw [h1] at hA
    exact Bool.false_ne_true hA
  · rcases occursIn_append_sep isAmountChar pat.data
        (" USDC, have ").data (fmtUSDC b).data (" USDC").data
        hfree (fun c hc => fmtUSDC_chars b c hc) (fmtUSDC_ne_nil b)
        (by rw [List.append_assoc]; exact hrest) with hB | hC
    · rw [h2] at hB
      exact Bool.false_ne_true hB
    · rw [h3] at hC
      exact Bool.false_ne_true hC

theorem insufficientMsg_ne_empty (t b : Nat) : Part006.insufficientMsg t b ≠ "" := by
  intro h
  have hdata : (Part006.insufficientMsg t b).data = [] := by rw [h]
  unfold Part006.insufficientMsg at hdata
  simp only [data_append, List.append_eq_nil] at hdata
  have : ("Insufficient USDC balance. Need ").data = [] := hdata.1.1.1.1
  simp at this

/-- The `catch` classifier passes the insufficient-balance throw through
unrecognised (none of its message patterns can match — the thrown message
has a capital-I `"Insufficient USDC balance"`, while the classifier looks
for lowercase `"insufficient funds"` / `"insufficient balance"`), so the
surfaced error is `"Mint failed: Insufficient USDC balance. Need …"`. -/
theorem classify_insufficient (t b : Nat) :
    Part006.classifyMintError (Part006.insufficientMsg t b)
      = "Mint failed: " ++ Part006.insufficientMsg t b := by
  have hrej := not_includes_insufficientMsg "rejected"
    (by decide) (by decide) (by decide) (by decide) t b
  have hden := not_includes_insufficientMsg "denied"
    (by decide) (by decide) (by decide) (by decide) t b
  have hif := not_includes_insufficientMsg "insufficient funds"
    (by decide) (by decide) (by decide) (by decide) t b
  have hib := not_includes_insufficientMsg "insufficient balance"
    (by decide) (by decide) (by decide) (by decide) t b
  have hnoac := not_includes_insufficientMsg "DropNoActiveCondition"
    (by decide) (by decide) (by decide) (by decide) t b
  have hlim := not_includes_insufficientMsg "DropClaimExceedLimit"
    (by decide) (by decide) (by decide) (by decide) t b
  have hexc := not_includes_insufficientMsg "exceed"
    (by decide) (by decide) (by decide) (by decide) t b
  have hall := not_includes_insufficientMsg "allowance"
    (by decide) (by decide) (by decide) (by decide) t b
  have hrev := not_includes_insufficientMsg "execution reverted"
    (by decide) (by decide) (by decide) (by decide) t b
  unfold Part006.classifyMintError
  rw [hrej, hden, hif, hib, hnoac, hlim, hexc, hall, hrev]
  simp only [Bool.or_self, Bool.false_eq_true, if_false]
  rw [if_neg (insufficientMsg_ne_empty t b)]

/-- **C1.** For every connected holder whose USDC balance is below the
required amount, `mintNFT` fails after the single balance read — zero
writes, no authorization and no claim submission — and the surfaced
failure message contains both the formatted required amount and the
formatted held amount (`"Mint failed: Insufficient USDC balance. Need
<required> USDC, have <held> USDC"`). -/
theorem mint_insufficient_balance (w : Wallet) (env : Part006.LedgerEnv)
    (q b : Nat) (hq1 : 1 ≤ q) (hq2 : q ≤ 100)
    (hbal : env.balanceOf = .ok b) (hlt : b < MINT_PRICE * q) :
    Part006.mintNFT (some w) q env
        = (.error ("Mint failed: " ++ Part006.insufficientMsg (MINT_PRICE * q) b),
           [RemoteCall.readBalance w.address])
    ∧ includes ("Mint failed: " ++ Part006.insufficientMsg (MINT_PRICE * q) b)
        (fmtUSDC (MINT_PRICE * q)) = true
    ∧ includes ("Mint failed: " ++ Part006.insufficientMsg (MINT_PRICE * q) b)
        (fmtUSDC b) = true
    ∧ ([RemoteCall.readBalance w.address].filter RemoteCall.isWrite) = [] := by
  refine ⟨?_, ?_, ?_, rfl⟩
  · unfold Part006.mintNFT
    dsimp only
    rw [if_neg (show ¬ ((decide (q < 1) || decide (100 < q)) = true) by simp; omega)]
    rw [hbal]
    dsimp only
    rw [if_pos hlt, classify_insufficient]
  · unfold includes Part006.insufficientMsg
    simp only [data_append, List.append_assoc]
    rw [show ("Mint failed: ").data ++ (("Insufficient USDC balance. Need ").data
          ++ ((fmtUSDC (MINT_PRICE * q)).data ++ ((" USDC, have ").data
          ++ ((fmtUSDC b).data ++ (" USDC").data))))
        = (("Mint failed: ").data ++ ("Insufficient USDC balance. Need ").data)
          ++ (fmtUSDC (MINT_PRICE * q)).data ++ ((" USDC, have ").data
          ++ ((fmtUSDC b).data ++ (" USDC").data)) by
      simp [List.append_assoc]]
    exact occursIn_of_middle _ _ _
  · unfold includes Part006.insufficientMsg
    simp only [data_append, List.append_assoc]
    rw [show ("Mint failed: ").data ++ (("Insufficient USDC balance. Need ").data
          ++ ((fmtUSDC (MINT_PRICE * q)).data ++ ((" USDC, have ").data
          ++ ((fmtUSDC b).data ++ (" USDC").data))))
        = (("Mint failed: ").data ++ (("Insufficient USDC balance. Need ").data
          ++ ((fmtUSDC (MINT_PRICE * q)).data ++ (" USDC, have ").data)))
          ++ (fmtUSDC b).data ++ (" USDC").data by
      simp [List.append_assoc]]
    exact occursIn_of_middle _ _ _

/-- **C1 witness.** Scenario A: zero balance, required amount 1 USDC — the
mint fails with the message mentioning `1.00` and `0.00`, and the trace is
the lone balance read (no writes). -/
theorem mint_insufficient_balance_witness :
    Part006.mintNFT
        (some { address := "0xholder", chainId := 8453, isConnected := true }) 1
        { balanceOf := .ok 0, allowance := .ok 0, approveSend := .error "unused"
          approveReceipt := .error "unused", claimSendStructured := .error "unused"
          claimSendFallback := .error "unused" }
      = (.error "Mint failed: Insufficient USDC balance. Need 1.00 USDC, have 0.00 USDC",
         [RemoteCall.readBalance "0xholder"]) := by
  have h := (mint_insufficient_balance
    { address := "0xholder", chainId := 8453, isConnected := true }
    { balanceOf := .ok 0, allowance := .ok 0, approveSend := .error "unused"
      approveReceipt := .error "unused", claimSendStructured := .error "unused"
      claimSendFallback := .error "unused" }
    1 0 (by decide) (by decide) rfl (by decide)).1
  rw [h]
  decide

/-- **C10.** The fungible-balance read reports zero instead of failing:
`getUSDCBalance` (part_003) returns `"0.00"` — and by construction returns a
string rather than throwing — when the provider of the holder is unset
(`window.ethereum` absent) and when either remote read faults (hence also
for any "account not found" fault, which is reported as a zero balance
rather than an error); and the `catch` of `Web3Context.getBalance` likewise turns
a failed read into zero balances. -/
theorem fungible_balance_zero_on_failure (env : Part003.EthEnv) (address : String)
    (w : Wallet) (ethDisp : Option String) (m : String) :
    (env.hasProvider = false → Part003.getUSDCBalance env address = "0.00")
    ∧ (env.balanceOf = .error m → Part003.getUSDCBalance env address = "0.00")
    ∧ (env.decimals = .error m → Part003.getUSDCBalance env address = "0.00")
    ∧ Web3Context.getBalance (some w) ethDisp (.error m)
        = .ok { usdc := "0.00", native := "0.0000" } := by
  refine ⟨?_, ?_, ?_, rfl⟩
  · intro h
    unfold Part003.getUSDCBalance
    rw [h]
    rfl
  · intro h
    unfold Part003.getUSDCBalance
    rw [h]
    cases env.hasProvider <;> rfl
  · intro h
    unfold Part003.getUSDCBalance
    rw [h]
    cases env.hasProvider <;> cases env.balanceOf <;> rfl

/-- **C10 witness.** A present provider whose balance read faults with
"account not found" yields `"0.00"`; an absent provider yields `"0.00"`;
the context `getBalance` maps a faulted read to zero balances. -/
theorem fungible_balance_zero_on_failure_witness :
    Part003.getUSDCBalance
        { hasProvider := true, balanceOf := .error "account not found", decimals := .ok 6 }
        "0xholder" = "0.00"
    ∧ Part003.getUSDCBalance
        { hasProvider := false, balanceOf := .ok 5, decimals := .ok 6 }
        "0xholder" = "0.00"
    ∧ Web3Context.getBalance
        (some { address := "0xholder", chainId := 8453, isConnected := true })
        (some "0.0100") (.error "network error")
      = .ok { usdc := "0.00", native := "0.0000" } := by
  refine ⟨?_, ?_, ?_⟩
  · exact (fungible_balance_zero_on_failure
      { hasProvider := true, balanceOf := .error "account not found", decimals := .ok 6 }
      "0xholder" { address := "0xholder", chainId := 8453, isConnected := true }
      (some "0.0100") "account not found").2.1 rfl
  · exact (fungible_balance_zero_on_failure
      { hasProvider := false, balanceOf := .ok 5, decimals := .ok 6 }
      "0xholder" { address := "0xholder", chainId := 8453, isConnected := true }
      (some "0.0100") "account not found").1 rfl
  · exact (fungible_balance_zero_on_failure
      { hasProvider := true, balanceOf := .error "account not found", decimals := .ok 6 }
      "0xholder" { address := "0xholder", chainId := 8453, isConnected := true }
      (some "0.0100") "network error").2.2.2

end Comd
